import Mathlib

/-!
Verification of the expression-language standard library of this repository
(package expressionstcl: the standard function table, the stdMachine, and the
casting helpers).  The standard-library source is embedded faithfully; the
surrounding machinery that the repository does not ship here (the StaticValue
value model, the Compile parser and the Resolve reduction) is modelled from
the specification, with each such definition marked in its doc comment.

Conventions: Go (value, error) pairs become Except String; Go (Expression,
bool, error) triples become Option Expr × Bool × Option String; Go machine
integers become Int (no claim under verification approaches overflow);
Go float64 is approximated by Rat (no claim under verification constructs a
non-integral float).
-/

/-- Modelled from the spec (section 3, StaticValue): one resolved datum.
A string, a 64-bit integer, a 64-bit float (approximated by Rat), a boolean,
none, an ordered sequence of untyped values, or a mapping from string keys to
untyped values with insertion order preserved. -/
inductive Value where
  | none : Value
  | bool (b : Bool) : Value
  | int (n : Int) : Value
  | float (q : Rat) : Value
  | str (s : String) : Value
  | list (xs : List Value) : Value
  | map (kvs : List (String × Value)) : Value

/-- Modelled from the spec (section 4.2): the IsNone kind predicate. -/
def Value.isNone : Value → Bool
  | .none => true
  | _ => false

/-- Modelled from the spec (section 4.2): the IsSlice kind predicate. -/
def Value.isSlice : Value → Bool
  | .list _ => true
  | _ => false

/-- Modelled from the spec (section 4.2): the IsString kind predicate. -/
def Value.isString : Value → Bool
  | .str _ => true
  | _ => false

/-- Modelled from the spec (section 4.2): the IsMap kind predicate. -/
def Value.isMap : Value → Bool
  | .map _ => true
  | _ => false

/-- Decimal value of a digit run (used by the modelled textual parsers). -/
def digitsVal (cs : List Char) : Nat :=
  cs.foldl (fun a c => a * 10 + (c.toNat - 48)) 0

/-- True when every character is a decimal digit and the run is nonempty. -/
def allDigits (cs : List Char) : Bool :=
  !cs.isEmpty && cs.all Char.isDigit

/-- Modelled from the spec (section 4.2): conventional textual parsing of an
integer, in the style of strconv.ParseInt base 10 (optional sign, digits). -/
def parseIntStr (s : String) : Option Int :=
  match s.data with
  | '-' :: rest => if allDigits rest then some (-(digitsVal rest : Int)) else Option.none
  | '+' :: rest => if allDigits rest then some (digitsVal rest : Int) else Option.none
  | cs => if allDigits cs then some (digitsVal cs : Int) else Option.none

/-- Modelled from the spec (section 4.2): conventional textual parsing of a
number with an optional fractional part (strconv.ParseFloat on the plain
decimal forms). -/
def parseRatStr (s : String) : Option Rat :=
  match s.split (· = '.') with
  | [ip] => (parseIntStr ip).map (fun n => (n : Rat))
  | [ip, fp] =>
    if allDigits fp.data then
      (parseIntStr ip).map (fun n =>
        let frac : Rat := (digitsVal fp.data : Rat) / ((10 : Rat) ^ fp.length)
        if n < 0 then (n : Rat) - frac else (n : Rat) + frac)
    else Option.none
  | _ => Option.none

/-- Modelled from the spec (section 4.2): conventional textual parsing of a
boolean, in the style of strconv.ParseBool. -/
def parseBoolStr (s : String) : Option Bool :=
  if s = "1" || s = "t" || s = "T" || s = "true" || s = "TRUE" || s = "True" then some true
  else if s = "0" || s = "f" || s = "F" || s = "false" || s = "FALSE" || s = "False" then some false
  else Option.none

/-- Modelled from the spec (section 4.2): truncation of a rational toward
zero, as IntValue does on a float. -/
def ratTrunc (q : Rat) : Int :=
  q.num.tdiv (q.den : Int)

/-- Modelled from the spec (section 4.2): the fallible IntValue accessor.
An int converts exactly, a float truncates toward zero, a string follows
conventional textual parsing, every other kind fails. -/
def intValue : Value → Except String Int
  | .int n => .ok n
  | .float q => .ok (ratTrunc q)
  | .str s =>
    match parseIntStr s with
    | some n => .ok n
    | Option.none => .error ("error while converting value to number: " ++ s)
  | _ => .error "error while converting value to number"

/-- Modelled from the spec (section 4.2): the fallible BoolValue accessor.
A bool converts exactly, a string follows conventional textual parsing,
every other kind fails. -/
def boolValue : Value → Except String Bool
  | .bool b => .ok b
  | .str s =>
    match parseBoolStr s with
    | some b => .ok b
    | Option.none => .error ("error while converting value to bool: " ++ s)
  | _ => .error "error while converting value to bool"

/-- Modelled from the spec (section 4.2): the fallible FloatValue accessor.
A float converts exactly, an int converts exactly, a string follows
conventional textual parsing, every other kind fails. -/
def floatValue : Value → Except String Rat
  | .float q => .ok q
  | .int n => .ok (n : Rat)
  | .str s =>
    match parseRatStr s with
    | some q => .ok q
    | Option.none => .error ("error while converting value to float: " ++ s)
  | _ => .error "error while converting value to float"

/-- Modelled from the spec (section 4.2): the fallible SliceValue accessor. -/
def sliceValue : Value → Except String (List Value)
  | .list xs => .ok xs
  | _ => .error "value is not a slice"

/-- Modelled from the spec (section 4.2): the fallible MapValue accessor. -/
def mapValue : Value → Except String (List (String × Value))
  | .map kvs => .ok kvs
  | _ => .error "value is not a map"

/-- JSON-style escaping of one character (used by the modelled serializer). -/
def escChar (c : Char) : String :=
  if c = '"' then "\\\""
  else if c = '\\' then "\\\\"
  else if c = '\n' then "\\n"
  else if c = '\t' then "\\t"
  else if c = '\r' then "\\r"
  else String.mk [c]

/-- JSON-style quoting of a string (used by the modelled serializer). -/
def quoteJson (s : String) : String :=
  "\"" ++ String.join (s.data.map escChar) ++ "\""

/-- Textual form of a rational in the modelled serializer: exact for
integral values; the exact float formatting of non-integral values is
outside the model. -/
def ratToString (q : Rat) : String :=
  if q.den = 1 then toString q.num
  else toString q.num ++ "/" ++ toString q.den

/-- One layer of the modelled JSON-style serializer; the argument performs
serialization of strictly smaller values. -/
def valueToJsonStep (g : Value → String) : Value → String
  | .none => "null"
  | .bool true => "true"
  | .bool false => "false"
  | .int n => toString n
  | .float q => ratToString q
  | .str s => quoteJson s
  | .list xs => "[" ++ String.intercalate "," (xs.map g) ++ "]"
  | .map kvs =>
    "\x7b" ++ String.intercalate "," (kvs.map (fun p => quoteJson p.1 ++ ":" ++ g p.2)) ++ "\x7d"

/-- Fuel-indexed JSON-style serializer (the fuel bounds nesting depth). -/
def valueToJsonF : Nat → Value → String
  | 0 => fun _ => ""
  | f + 1 => valueToJsonStep (valueToJsonF f)

/-- Depth bound of the modelled serializer: no value built by a claim under
verification nests anywhere near this deep. -/
def serializerDepth : Nat := 1000

/-- Modelled from the spec: the canonical textual serialization of a value
(the json.Marshal of the Go source, which the value model uses for the
textual form of non-string values); nesting depth is bounded by the model. -/
def valueToJson (v : Value) : String :=
  valueToJsonF serializerDepth v

/-- Modelled from the spec (section 4.2 and design note on best-effort
stringification): the textual form of a value as produced by the toString
helper of the source package, with a swallowed error. A string is itself;
every other kind serializes canonically. -/
def toStringD : Value → String
  | .str s => s
  | v => valueToJson v

example : toStringD (.int 42) = "42" := rfl
example : toStringD (.list [.int 1, .str "a"]) = "[1,\"a\"]" := rfl
example : intValue (.str "-17") = .ok (-17) := rfl
example : intValue (.str "x7") = .error "error while converting value to number: x7" := rfl
example : boolValue (.str "true") = .ok true := rfl

/-- Modelled from the spec (section 3, Expression): an AST node. Literals,
dotted variable references, function calls, and operator nodes (the spec
presents operators as sugar over calls; the model gives them a node). The
accessor variant is not needed by any claim under verification and is
omitted from the modelled fragment. -/
inductive Expr where
  | lit (v : Value) : Expr
  | var (name : String) : Expr
  | call (name : String) (args : List Expr) : Expr
  | binop (op : String) (a b : Expr) : Expr

/-- Modelled from the spec (section 3): the Static accessor of an expression,
some value exactly when the node is fully reduced. -/
def Expr.static? : Expr → Option Value
  | .lit v => some v
  | _ => Option.none

/-- The Type enumeration of the source package (spec section 3): Unknown,
String, Int64, Float64, Bool, None. -/
inductive Ty where
  | unknown : Ty
  | string : Ty
  | int64 : Ty
  | float64 : Ty
  | bool : Ty
  | none : Ty
deriving DecidableEq

/-- Modelled from the spec (section 3): the static type of a resolved value;
collections are untyped at the static-type level. -/
def tyOfValue : Value → Ty
  | .str _ => .string
  | .int _ => .int64
  | .float _ => .float64
  | .bool _ => .bool
  | .none => .none
  | .list _ => .unknown
  | .map _ => .unknown

/-- GetStdFunctionReturnType of the source: the ReturnType field of the
standard-function table entry, TypeUnknown for entries without one and for
names outside the table. -/
def GetStdFunctionReturnType : String → Ty
  | "string" => .string
  | "join" => .string
  | "int" => .int64
  | "bool" => .bool
  | "float" => .float64
  | "tojson" => .string
  | "toyaml" => .string
  | "shellquote" => .string
  | "trim" => .string
  | "len" => .int64
  | "floor" => .int64
  | "ceil" => .int64
  | "round" => .int64
  | _ => .unknown

/-- Modelled from the spec (section 3): the best-effort static type of an
expression node. A literal reports the type of its value, a call the return
type of its standard function, anything else Unknown. -/
def tyOf : Expr → Ty
  | .lit v => tyOfValue v
  | .call name _ => GetStdFunctionReturnType name
  | _ => .unknown

/-- newCall of the source package, modelled on the call node: builds a call
expression from a function name and argument expressions. -/
def newCall (name : String) (args : List Expr) : Expr :=
  .call name args

/-- NewValue of the source package, modelled on the AST: wraps a resolved
value as a literal expression. -/
def NewValue (v : Value) : Expr :=
  .lit v

/-- Modelled from the spec: NewStringValue builds a string-typed static value
from the textual form of an arbitrary payload. -/
def NewStringValue (v : Value) : Expr :=
  .lit (.str (toStringD v))

/-- Constant stringCastStdFn of the source. -/
def stringCastStdFn : String := "string"

/-- Constant boolCastStdFn of the source. -/
def boolCastStdFn : String := "bool"

/-- Constant intCastStdFn of the source. -/
def intCastStdFn : String := "int"

/-- Constant floatCastStdFn of the source (declared there and never used). -/
def floatCastStdFn : String := "float"

/-- CastToString of the source: a static value is eagerly rebuilt as a string
value; an expression already typed string is returned unchanged; anything
else is wrapped as a call to the string cast function. -/
def CastToString (v : Expr) : Expr :=
  match v.static? with
  | some sv => NewStringValue sv
  | Option.none =>
    if tyOf v = Ty.string then v
    else newCall stringCastStdFn [v]

/-- CastToBool of the source: unchanged when typed bool, otherwise wrapped as
a call to the bool cast function. -/
def CastToBool (v : Expr) : Expr :=
  if tyOf v = Ty.bool then v
  else newCall boolCastStdFn [v]

/-- CastToInt of the source: unchanged when typed int64, otherwise wrapped as
a call to the int cast function. -/
def CastToInt (v : Expr) : Expr :=
  if tyOf v = Ty.int64 then v
  else newCall intCastStdFn [v]

/-- CastToFloat of the source: unchanged when typed float64, otherwise
wrapped as a call to intCastStdFn, exactly as the source reads (the source
never uses its floatCastStdFn constant). -/
def CastToFloat (v : Expr) : Expr :=
  if tyOf v = Ty.float64 then v
  else newCall intCastStdFn [v]

example : CastToFloat (.var "x") = .call "int" [.var "x"] := rfl
example : CastToBool (.lit (.bool true)) = .lit (.bool true) := rfl
example : CastToString (.lit (.int 5)) = .lit (.str "5") := rfl
example : CastToString (.var "x") = .call "string" [.var "x"] := rfl

/-- Token of the modelled lexer. -/
inductive Tok where
  | int (n : Int) : Tok
  | float (q : Rat) : Tok
  | str (s : String) : Tok
  | ident (s : String) : Tok
  | sym (s : String) : Tok

/-- First character of an identifier (letters and underscore). -/
def isIdentStart (c : Char) : Bool :=
  c.isAlpha || c = '_'

/-- Later character of a dotted identifier path. -/
def isIdentChar (c : Char) : Bool :=
  c.isAlphanum || c = '_' || c = '.'

/-- Unescaping of one escaped character inside a string literal. -/
def unescChar (c : Char) : Char :=
  if c = 'n' then '\n'
  else if c = 't' then '\t'
  else if c = 'r' then '\r'
  else c

/-- Consumes the body of a string literal up to the closing quote, handling
backslash escapes; yields the content and the remaining characters. -/
def lexStrAux : List Char → Option (List Char × List Char)
  | [] => Option.none
  | '"' :: rest => some ([], rest)
  | '\\' :: c :: rest => (lexStrAux rest).map (fun p => (unescChar c :: p.1, p.2))
  | c :: rest => (lexStrAux rest).map (fun p => (c :: p.1, p.2))

/-- Lexes a number token (digits with an optional fractional part). -/
def lexNum (cs : List Char) : Tok × List Char :=
  let ds := cs.takeWhile Char.isDigit
  let rest := cs.dropWhile Char.isDigit
  match rest with
  | '.' :: c2 :: r2 =>
    if c2.isDigit then
      let fs := (c2 :: r2).takeWhile Char.isDigit
      let rest2 := (c2 :: r2).dropWhile Char.isDigit
      (Tok.float ((digitsVal ds : Rat) + (digitsVal fs : Rat) / (10 : Rat) ^ fs.length), rest2)
    else (Tok.int (digitsVal ds : Int), rest)
  | _ => (Tok.int (digitsVal ds : Int), rest)

/-- Modelled from the spec (section 4.1): the lexer of the expression
grammar fragment used by the claims: literals, dotted identifier paths,
calls, parentheses, commas, and the conventional operators. -/
def tokenizeF : Nat → List Char → Except String (List Tok)
  | 0, _ => .error "lexer: out of fuel"
  | _, [] => .ok []
  | f + 1, c :: cs =>
    if c = ' ' || c = '\t' || c = '\n' || c = '\r' then tokenizeF f cs
    else if c.isDigit then
      match lexNum (c :: cs) with
      | (t, rest) => do
        let ts ← tokenizeF f rest
        .ok (t :: ts)
    else if isIdentStart c then
      let run := (c :: cs).takeWhile isIdentChar
      let rest := (c :: cs).dropWhile isIdentChar
      do
        let ts ← tokenizeF f rest
        .ok (Tok.ident (String.mk run) :: ts)
    else if c = '"' then
      match lexStrAux cs with
      | some (content, rest) => do
        let ts ← tokenizeF f rest
        .ok (Tok.str (String.mk content) :: ts)
      | Option.none => .error "lexer: unterminated string literal"
    else if c = '>' || c = '<' then
      match cs with
      | '=' :: r => do
        let ts ← tokenizeF f r
        .ok (Tok.sym (String.mk [c, '=']) :: ts)
      | _ => do
        let ts ← tokenizeF f cs
        .ok (Tok.sym (String.mk [c]) :: ts)
    else if c = '=' then
      match cs with
      | '=' :: r => do
        let ts ← tokenizeF f r
        .ok (Tok.sym "==" :: ts)
      | _ => .error "lexer: unexpected character ="
    else if c = '!' then
      match cs with
      | '=' :: r => do
        let ts ← tokenizeF f r
        .ok (Tok.sym "!=" :: ts)
      | _ => .error "lexer: unexpected character !"
    else if c = '&' then
      match cs with
      | '&' :: r => do
        let ts ← tokenizeF f r
        .ok (Tok.sym "&&" :: ts)
      | _ => .error "lexer: unexpected character &"
    else if c = '|' then
      match cs with
      | '|' :: r => do
        let ts ← tokenizeF f r
        .ok (Tok.sym "||" :: ts)
      | _ => .error "lexer: unexpected character |"
    else if c = '(' || c = ')' || c = ',' || c = '*' || c = '/' || c = '+' || c = '-' then do
      let ts ← tokenizeF f cs
      .ok (Tok.sym (String.mk [c]) :: ts)
    else .error "lexer: unexpected character"

/-- The family of parsing functions of one fuel layer: one entry point per
precedence level, the left-associative continuation of each level, the
primary parser and the call-argument list parser. -/
structure PStep where
  pOr : List Tok → Except String (Expr × List Tok)
  pOrL : Expr → List Tok → Except String (Expr × List Tok)
  pAnd : List Tok → Except String (Expr × List Tok)
  pAndL : Expr → List Tok → Except String (Expr × List Tok)
  pCmp : List Tok → Except String (Expr × List Tok)
  pCmpL : Expr → List Tok → Except String (Expr × List Tok)
  pAdd : List Tok → Except String (Expr × List Tok)
  pAddL : Expr → List Tok → Except String (Expr × List Tok)
  pMul : List Tok → Except String (Expr × List Tok)
  pMulL : Expr → List Tok → Except String (Expr × List Tok)
  pPrim : List Tok → Except String (Expr × List Tok)
  pArgs : List Tok → Except String (List Expr × List Tok)

/-- The exhausted parser layer. -/
def pFail : PStep where
  pOr := fun _ => .error "parser: out of fuel"
  pOrL := fun _ _ => .error "parser: out of fuel"
  pAnd := fun _ => .error "parser: out of fuel"
  pAndL := fun _ _ => .error "parser: out of fuel"
  pCmp := fun _ => .error "parser: out of fuel"
  pCmpL := fun _ _ => .error "parser: out of fuel"
  pAdd := fun _ => .error "parser: out of fuel"
  pAddL := fun _ _ => .error "parser: out of fuel"
  pMul := fun _ => .error "parser: out of fuel"
  pMulL := fun _ _ => .error "parser: out of fuel"
  pPrim := fun _ => .error "parser: out of fuel"
  pArgs := fun _ => .error "parser: out of fuel"

/-- Modelled from the spec (section 4.1): one layer of the recursive-descent
parser for the grammar fragment the claims use, with conventional precedence
(or, and, comparison, additive, multiplicative, primary) and
left-associative chaining. -/
def pstep (ih : PStep) : PStep where
  pOr := fun ts => do
    let (a, r) ← ih.pAnd ts
    ih.pOrL a r
  pOrL := fun a ts =>
    match ts with
    | Tok.sym "||" :: r => do
      let (b, r') ← ih.pAnd r
      ih.pOrL (.binop "||" a b) r'
    | _ => .ok (a, ts)
  pAnd := fun ts => do
    let (a, r) ← ih.pCmp ts
    ih.pAndL a r
  pAndL := fun a ts =>
    match ts with
    | Tok.sym "&&" :: r => do
      let (b, r') ← ih.pCmp r
      ih.pAndL (.binop "&&" a b) r'
    | _ => .ok (a, ts)
  pCmp := fun ts => do
    let (a, r) ← ih.pAdd ts
    ih.pCmpL a r
  pCmpL := fun a ts =>
    match ts with
    | Tok.sym ">" :: r => do
      let (b, r') ← ih.pAdd r
      ih.pCmpL (.binop ">" a b) r'
    | Tok.sym "<" :: r => do
      let (b, r') ← ih.pAdd r
      ih.pCmpL (.binop "<" a b) r'
    | Tok.sym ">=" :: r => do
      let (b, r') ← ih.pAdd r
      ih.pCmpL (.binop ">=" a b) r'
    | Tok.sym "<=" :: r => do
      let (b, r') ← ih.pAdd r
      ih.pCmpL (.binop "<=" a b) r'
    | Tok.sym "==" :: r => do
      let (b, r') ← ih.pAdd r
      ih.pCmpL (.binop "==" a b) r'
    | Tok.sym "!=" :: r => do
      let (b, r') ← ih.pAdd r
      ih.pCmpL (.binop "!=" a b) r'
    | _ => .ok (a, ts)
  pAdd := fun ts => do
    let (a, r) ← ih.pMul ts
    ih.pAddL a r
  pAddL := fun a ts =>
    match ts with
    | Tok.sym "+" :: r => do
      let (b, r') ← ih.pMul r
      ih.pAddL (.binop "+" a b) r'
    | Tok.sym "-" :: r => do
      let (b, r') ← ih.pMul r
      ih.pAddL (.binop "-" a b) r'
    | _ => .ok (a, ts)
  pMul := fun ts => do
    let (a, r) ← ih.pPrim ts
    ih.pMulL a r
  pMulL := fun a ts =>
    match ts with
    | Tok.sym "*" :: r => do
      let (b, r') ← ih.pPrim r
      ih.pMulL (.binop "*" a b) r'
    | Tok.sym "/" :: r => do
      let (b, r') ← ih.pPrim r
      ih.pMulL (.binop "/" a b) r'
    | _ => .ok (a, ts)
  pPrim := fun ts =>
    match ts with
    | Tok.int n :: r => .ok (.lit (.int n), r)
    | Tok.float q :: r => .ok (.lit (.float q), r)
    | Tok.str s :: r => .ok (.lit (.str s), r)
    | Tok.ident "true" :: r => .ok (.lit (.bool true), r)
    | Tok.ident "false" :: r => .ok (.lit (.bool false), r)
    | Tok.ident "none" :: r => .ok (.lit .none, r)
    | Tok.ident id :: Tok.sym "(" :: r => do
      let (as, r') ← ih.pArgs r
      .ok (.call id as, r')
    | Tok.ident id :: r => .ok (.var id, r)
    | Tok.sym "(" :: r => do
      let (e, r') ← ih.pOr r
      match r' with
      | Tok.sym ")" :: r'' => .ok (e, r'')
      | _ => .error "parser: expected closing parenthesis"
    | _ => .error "parser: unexpected token"
  pArgs := fun ts =>
    match ts with
    | Tok.sym ")" :: r => .ok ([], r)
    | _ => do
      let (e, r) ← ih.pOr ts
      match r with
      | Tok.sym "," :: r' => do
        let (es, r'') ← ih.pArgs r'
        .ok (e :: es, r'')
      | Tok.sym ")" :: r' => .ok ([e], r')
      | _ => .error "parser: expected comma or closing parenthesis"

/-- Fuel-indexed tower of parser layers. -/
def pAll : Nat → PStep
  | 0 => pFail
  | f + 1 => pstep (pAll f)

/-- Modelled from the spec (sections 4.1 and 6): Compile turns source text
into an expression tree; syntax errors fail. The fuel is ample for any
input the claims consider (parser recursion consumes at least one token per
chain of layers). -/
def Compile (s : String) : Except String Expr :=
  match tokenizeF (s.data.length + 1) s.data with
  | .error e => .error e
  | .ok ts =>
    match (pAll (ts.length * 16 + 64)).pOr ts with
    | .error e => .error e
    | .ok (e, []) => .ok e
    | .ok (_, _ :: _) => .error "parser: unexpected trailing tokens"

example : Compile "_.value * 2" = .ok (.binop "*" (.var "_.value") (.lit (.int 2))) := rfl
example : Compile "_.value > 2" = .ok (.binop ">" (.var "_.value") (.lit (.int 2))) := rfl
example : Compile "list(1,2,3)" =
    .ok (.call "list" [.lit (.int 1), .lit (.int 2), .lit (.int 3)]) := rfl
example : Compile "\"true\"" = .ok (.lit (.str "true")) := rfl
example : Compile "foo.bar && x < 10" =
    .ok (.binop "&&" (.var "foo.bar") (.binop "<" (.var "x") (.lit (.int 10)))) := rfl
example : (Compile "list(1,").isOk = false := rfl

/-- One layer of the modelled canonical serialization of an expression (the
String method of the spec, section 3). -/
def exprReprStep (g : Expr → String) : Expr → String
  | .lit v => valueToJson v
  | .var n => n
  | .call name args => name ++ "(" ++ String.intercalate "," (args.map g) ++ ")"
  | .binop op a b => g a ++ " " ++ op ++ " " ++ g b

/-- Fuel-indexed expression serializer. -/
def exprReprF : Nat → Expr → String
  | 0 => fun _ => ""
  | f + 1 => exprReprStep (exprReprF f)

/-- Modelled from the spec (section 3): the canonical re-parseable source
form of an expression; nesting depth is bounded by the model. -/
def exprRepr (e : Expr) : String :=
  exprReprF serializerDepth e

/-- One layer of structural equality of values (used by the modelled
comparison operators). -/
def beqValueStep (g : Value → Value → Bool) : Value → Value → Bool
  | .none, .none => true
  | .bool a, .bool b => a == b
  | .int a, .int b => a == b
  | .float a, .float b => a == b
  | .str a, .str b => a == b
  | .list xs, .list ys =>
    xs.length == ys.length && (List.zip xs ys).all (fun p => g p.1 p.2)
  | .map xs, .map ys =>
    xs.length == ys.length &&
      (List.zip xs ys).all (fun p => p.1.1 == p.2.1 && g p.1.2 p.2.2)
  | _, _ => false

/-- Fuel-indexed structural equality of values. -/
def beqValueF : Nat → Value → Value → Bool
  | 0 => fun _ _ => false
  | f + 1 => beqValueStep (beqValueF f)

/-- Modelled structural equality of values; nesting depth is bounded by the
model. -/
def beqValue (x y : Value) : Bool :=
  beqValueF serializerDepth x y

/-- Arithmetic and comparison on two integers for one named operator. -/
def intArith (op : String) (a b : Int) : Except String Value :=
  if op = "*" then .ok (.int (a * b))
  else if op = "/" then
    if b = 0 then .error "error: division by zero"
    else .ok (.int (a.tdiv b))
  else if op = "+" then .ok (.int (a + b))
  else if op = "-" then .ok (.int (a - b))
  else if op = ">" then .ok (.bool (decide (b < a)))
  else if op = "<" then .ok (.bool (decide (a < b)))
  else if op = ">=" then .ok (.bool (decide (b ≤ a)))
  else if op = "<=" then .ok (.bool (decide (a ≤ b)))
  else .error ("unknown operator " ++ op)

/-- Arithmetic and comparison on two rationals for one named operator. -/
def ratArith (op : String) (a b : Rat) : Except String Value :=
  if op = "*" then .ok (.float (a * b))
  else if op = "/" then
    if b = 0 then .error "error: division by zero"
    else .ok (.float (a / b))
  else if op = "+" then .ok (.float (a + b))
  else if op = "-" then .ok (.float (a - b))
  else if op = ">" then .ok (.bool (decide (b < a)))
  else if op = "<" then .ok (.bool (decide (a < b)))
  else if op = ">=" then .ok (.bool (decide (b ≤ a)))
  else if op = "<=" then .ok (.bool (decide (a ≤ b)))
  else .error ("unknown operator " ++ op)

/-- The numeric payload of a value when it is an int or a float. -/
def numVal : Value → Option Rat
  | .int n => some (n : Rat)
  | .float q => some q
  | _ => Option.none

/-- Modelled from the spec (sections 4.1 and 4.3): evaluation of one
operator node on two static operands, with conventional semantics on the
numeric, boolean and string fragment; malformed operand kinds are reported
errors, never coerced. -/
def binOpApply (op : String) (x y : Value) : Except String Value :=
  if op = "==" then .ok (.bool (beqValue x y))
  else if op = "!=" then .ok (.bool (!beqValue x y))
  else if op = "&&" || op = "||" then
    match x, y with
    | .bool a, .bool b => .ok (.bool (if op = "&&" then a && b else a || b))
    | _, _ => .error ("error: operands of " ++ op ++ " must be booleans")
  else
    match x, y with
    | .int a, .int b => intArith op a b
    | .str a, .str b =>
      if op = "+" then .ok (.str (a ++ b))
      else .error ("error: invalid operands for operator " ++ op)
    | _, _ =>
      match numVal x, numVal y with
      | some a, some b => ratArith op a b
      | _, _ => .error ("error: invalid operands for operator " ++ op)

/-- Modelled from the spec (sections 3 and 4.4): the evaluation context a
resolver consults, as the ordered variable bindings the iteration machine of
map and filter registers. -/
def Resolver : Type :=
  List (String × Value) → Expr → Except String Expr

/-- The synthetic per-iteration bindings the source registers on a fresh
machine for element value v at index i (for sequences the key is the
index). -/
def iterEnv (i : Nat) (v : Value) : List (String × Value) :=
  [("_.value", v), ("_.index", .int i), ("_.key", .int i)]

/-- First-match lookup of a variable binding. -/
def lookupEnv (env : List (String × Value)) (n : String) : Option Value :=
  (env.find? (fun p => p.1 == n)).map (·.2)

example : lookupEnv (iterEnv 2 (.int 9)) "_.value" = some (.int 9) := rfl
example : lookupEnv (iterEnv 2 (.int 9)) "_.key" = some (.int 2) := rfl
example : lookupEnv (iterEnv 2 (.int 9)) "other" = Option.none := rfl

/-- Whitespace skipping for the modelled JSON codec. -/
def skipWs (cs : List Char) : List Char :=
  cs.dropWhile (fun c => c = ' ' || c = '\t' || c = '\n' || c = '\r')

/-- Number parsing for the modelled JSON codec. -/
def jNumAux (neg : Bool) (cs : List Char) : Except String (Value × List Char) :=
  match cs with
  | c :: _ =>
    if c.isDigit then
      match lexNum cs with
      | (Tok.int n, rest) => .ok (.int (if neg then -n else n), rest)
      | (Tok.float q, rest) => .ok (.float (if neg then -q else q), rest)
      | _ => .error "json: bad number"
    else .error "json: bad number"
  | [] => .error "json: bad number"

/-- The family of parsing functions of one layer of the modelled JSON
codec: a value, the items of an array and the fields of an object. -/
structure JStep where
  jVal : List Char → Except String (Value × List Char)
  jItems : List Char → Except String (List Value × List Char)
  jFields : List Char → Except String (List (String × Value) × List Char)

/-- The exhausted JSON layer. -/
def jFail : JStep where
  jVal := fun _ => .error "json: out of fuel"
  jItems := fun _ => .error "json: out of fuel"
  jFields := fun _ => .error "json: out of fuel"

/-- The leading alphabetic keyword of a character stream and the remainder
(used for the JSON literals null, true and false). -/
def jWord (cs : List Char) : String × List Char :=
  (String.mk (cs.takeWhile Char.isAlpha), cs.dropWhile Char.isAlpha)

/-- One layer of the modelled JSON codec. -/
def jstep (ih : JStep) : JStep where
  jVal := fun cs =>
    match skipWs cs with
    | '"' :: r =>
      match lexStrAux r with
      | some (content, rest) => .ok (.str (String.mk content), rest)
      | Option.none => .error "json: unterminated string"
    | '[' :: r => do
      let (xs, rest) ← ih.jItems r
      .ok (.list xs, rest)
    | '\x7b' :: r => do
      let (kvs, rest) ← ih.jFields r
      .ok (.map kvs, rest)
    | '-' :: r => jNumAux true r
    | cs' =>
      match jWord cs' with
      | ("null", r) => .ok (.none, r)
      | ("true", r) => .ok (.bool true, r)
      | ("false", r) => .ok (.bool false, r)
      | _ => jNumAux false cs'
  jItems := fun cs =>
    match skipWs cs with
    | ']' :: r => .ok ([], r)
    | cs' => do
      let (v, rest) ← ih.jVal cs'
      match skipWs rest with
      | ',' :: r' => do
        let (vs, rest') ← ih.jItems r'
        .ok (v :: vs, rest')
      | ']' :: r' => .ok ([v], r')
      | _ => .error "json: expected comma or closing bracket"
  jFields := fun cs =>
    match skipWs cs with
    | '\x7d' :: r => .ok ([], r)
    | '"' :: r =>
      match lexStrAux r with
      | some (key, rest) =>
        match skipWs rest with
        | ':' :: r2 => do
          let (v, rest2) ← ih.jVal r2
          match skipWs rest2 with
          | ',' :: r3 => do
            let (kvs, rest3) ← ih.jFields r3
            .ok ((String.mk key, v) :: kvs, rest3)
          | '\x7d' :: r3 => .ok ([(String.mk key, v)], r3)
          | _ => .error "json: expected comma or closing brace"
        | _ => .error "json: expected colon"
      | Option.none => .error "json: unterminated key"
    | _ => .error "json: expected key or closing brace"

/-- Fuel-indexed tower of JSON layers. -/
def jAll : Nat → JStep
  | 0 => jFail
  | f + 1 => jstep (jAll f)

/-- Modelled from the spec: the external JSON decoder (encoding/json
unmarshalling into an untyped structured value). -/
def jsonUnmarshal (s : String) : Except String Value := do
  let (v, rest) ← (jAll (s.data.length * 4 + 16)).jVal s.data
  if (skipWs rest).isEmpty then .ok v
  else .error "json: trailing content"

example : jsonUnmarshal "\x7b\"a\":[1,true,null]\x7d" =
    .ok (.map [("a", .list [.int 1, .bool true, .none])]) := rfl

/-- Modelled from the spec: the external YAML decoder, covered on the
JSON-compatible subset the model serializes. -/
def yamlUnmarshal (s : String) : Except String Value :=
  jsonUnmarshal s

/-- Modelled from the spec: the external YAML encoder; the model keeps the
canonical serialization (exact YAML layout is external to the model). -/
def yamlMarshal (v : Value) : String :=
  valueToJson v

/-- Characters that need no shell quoting (model of the external
go-shellquote join). -/
def isShellSafeChar (c : Char) : Bool :=
  c.isAlphanum || c = '+' || c = '-' || c = '_' || c = '=' || c = '/' ||
    c = ':' || c = '.' || c = ',' || c = '@' || c = '%' || c = '^'

/-- Modelled from the spec: shell quoting of one word as the external
go-shellquote library does (single quotes around unsafe words). -/
def shQuoteWord (w : String) : String :=
  if w = "" then "\x27\x27"
  else if w.data.all isShellSafeChar then w
  else
    "\x27" ++
      String.join (w.data.map (fun c =>
        if c = '\x27' then "\x27\\\x27\x27" else String.mk [c])) ++
      "\x27"

/-- Modelled from the spec: shell-escape every word and join with spaces
(the external shellquote.Join). -/
def shellquoteJoin (ws : List String) : String :=
  String.intercalate " " (ws.map shQuoteWord)

example : shellquoteJoin ["a b", "c"] = "\x27a b\x27 c" := rfl

/-- Whitespace test of the modelled shell tokenizer. -/
def isSpaceChar (c : Char) : Bool :=
  c = ' ' || c = '\t' || c = '\n' || c = '\r'

/-- Double-quoted segment of the modelled shell tokenizer. -/
def shDqF : List Char → Except String (List Char × List Char)
  | [] => .error "shellquote: unterminated double-quoted string"
  | '"' :: r => .ok ([], r)
  | '\\' :: c :: r => (shDqF r).map (fun p => (c :: p.1, p.2))
  | c :: r => (shDqF r).map (fun p => (c :: p.1, p.2))

/-- One word of the modelled shell tokenizer (reads until unquoted
whitespace, honouring single quotes, double quotes and backslashes). -/
def shWordF : Nat → List Char → Except String (List Char × List Char)
  | 0, _ => .error "shellquote: out of fuel"
  | _, [] => .ok ([], [])
  | f + 1, c :: cs =>
    if isSpaceChar c then .ok ([], c :: cs)
    else if c = '\x27' then
      let q := cs.takeWhile (fun c2 => !(c2 = '\x27'))
      match cs.dropWhile (fun c2 => !(c2 = '\x27')) with
      | '\x27' :: r => (shWordF f r).map (fun p => (q ++ p.1, p.2))
      | _ => .error "shellquote: unterminated single-quoted string"
    else if c = '"' then do
      let (seg, r) ← shDqF cs
      (shWordF f r).map (fun p => (seg ++ p.1, p.2))
    else if c = '\\' then
      match cs with
      | [] => .error "shellquote: unterminated backslash escape"
      | c2 :: r => (shWordF f r).map (fun p => (c2 :: p.1, p.2))
    else (shWordF f cs).map (fun p => (c :: p.1, p.2))

/-- Word loop of the modelled shell tokenizer. -/
def shSplitF : Nat → List Char → Except String (List String)
  | 0, _ => .error "shellquote: out of fuel"
  | _, [] => .ok []
  | f + 1, c :: cs =>
    if isSpaceChar c then shSplitF f cs
    else do
      let (w, rest) ← shWordF (cs.length + 2) (c :: cs)
      let ws ← shSplitF f rest
      .ok (String.mk w :: ws)

/-- Modelled from the spec: shell-tokenize a string into words (the
external shellquote.Split). -/
def shellquoteSplit (s : String) : Except String (List String) :=
  shSplitF (s.data.length + 1) s.data

example : shellquoteSplit "a \x27b c\x27 d" = .ok ["a", "b c", "d"] := rfl

/-- The string handler of the source table: concatenates the textual form of
all arguments (per-argument conversion errors are swallowed), never fails. -/
def stdString (value : List Value) : Except String Expr :=
  .ok (NewValue (.str (value.foldl (fun str v => str ++ toStringD v) "")))

/-- The list handler of the source table: builds a sequence from the raw
payloads of all arguments, never fails. -/
def stdList (value : List Value) : Except String Expr :=
  .ok (NewValue (.list value))

/-- Body of the join handler once the separator is fixed: none passes
through unchanged, a non-slice is an error, a slice joins the best-effort
textual forms of its elements. -/
def stdJoinWith (v0 : Value) (sep : String) : Except String Expr :=
  if v0.isNone then .ok (NewValue v0)
  else
    match v0 with
    | .list xs => .ok (NewValue (.str (String.intercalate sep (xs.map toStringD))))
    | _ => .error ("\"join\" function expects a slice as 1st argument: " ++ valueToJson v0 ++ " provided")

/-- The join handler of the source table (1-2 arguments, default separator
comma). -/
def stdJoin : List Value → Except String Expr
  | [v0] => stdJoinWith v0 ","
  | [v0, v1] => stdJoinWith v0 (toStringD v1)
  | vs => .error ("\"join\" function expects 1-2 arguments, " ++ toString vs.length ++ " provided")

/-- The split handler of the source table (1-2 arguments, default separator
comma); Go strings.Split is modelled by String.splitOn, matching it on every
nonempty separator. -/
def stdSplitFn : List Value → Except String Expr
  | [v0] => .ok (NewValue (.list (((toStringD v0).splitOn ",").map .str)))
  | [v0, v1] => .ok (NewValue (.list (((toStringD v0).splitOn (toStringD v1)).map .str)))
  | vs => .error ("\"split\" function expects 1-2 arguments, " ++ toString vs.length ++ " provided")

/-- The int handler of the source table: IntValue conversion, errors
propagated verbatim. -/
def stdInt : List Value → Except String Expr
  | [v0] =>
    match intValue v0 with
    | .ok v => .ok (NewValue (.int v))
    | .error e => .error e
  | vs => .error ("\"int\" function expects 1 argument, " ++ toString vs.length ++ " provided")

/-- The bool handler of the source table: BoolValue conversion, errors
propagated verbatim. -/
def stdBool : List Value → Except String Expr
  | [v0] =>
    match boolValue v0 with
    | .ok v => .ok (NewValue (.bool v))
    | .error e => .error e
  | vs => .error ("\"bool\" function expects 1 argument, " ++ toString vs.length ++ " provided")

/-- The float handler of the source table: FloatValue conversion, errors
propagated verbatim. -/
def stdFloat : List Value → Except String Expr
  | [v0] =>
    match floatValue v0 with
    | .ok v => .ok (NewValue (.float v))
    | .error e => .error e
  | vs => .error ("\"float\" function expects 1 argument, " ++ toString vs.length ++ " provided")

/-- The tojson handler of the source table: serialize the payload (marshal
failure cannot occur for the modelled values). -/
def stdTojson : List Value → Except String Expr
  | [v0] => .ok (NewValue (.str (valueToJson v0)))
  | vs => .error ("\"tojson\" function expects 1 argument, " ++ toString vs.length ++ " provided")

/-- The json handler of the source table: the argument must be a string,
which is decoded by the modelled JSON codec. -/
def stdJson : List Value → Except String Expr
  | [v0] =>
    if !v0.isString then .error "\"json\" function argument should be a string"
    else
      match jsonUnmarshal (toStringD v0) with
      | .ok v => .ok (NewValue v)
      | .error e => .error ("\"json\" function had problem unmarshalling: " ++ e)
  | vs => .error ("\"json\" function expects 1 argument, " ++ toString vs.length ++ " provided")

/-- The toyaml handler of the source table. -/
def stdToyaml : List Value → Except String Expr
  | [v0] => .ok (NewValue (.str (yamlMarshal v0)))
  | vs => .error ("\"toyaml\" function expects 1 argument, " ++ toString vs.length ++ " provided")

/-- The yaml handler of the source table: the argument must be a string,
which is decoded by the modelled YAML codec. -/
def stdYaml : List Value → Except String Expr
  | [v0] =>
    if !v0.isString then .error "\"yaml\" function argument should be a string"
    else
      match yamlUnmarshal (toStringD v0) with
      | .ok v => .ok (NewValue v)
      | .error e => .error ("\"yaml\" function had problem unmarshalling: " ++ e)
  | vs => .error ("\"yaml\" function expects 1 argument, " ++ toString vs.length ++ " provided")

/-- The shellquote handler of the source table: shell-escape and join the
textual form of every argument, never fails. -/
def stdShellquote (value : List Value) : Except String Expr :=
  .ok (NewValue (.str (shellquoteJoin (value.map toStringD))))

/-- The shellargs handler of the source table: shell-tokenize the textual
form of the argument; tokenization errors propagate. -/
def stdShellargs : List Value → Except String Expr
  | [v0] =>
    match shellquoteSplit (toStringD v0) with
    | .ok ws => .ok (NewValue (.list (ws.map .str)))
    | .error e => .error e
  | vs => .error ("\"shellargs\" function expects 1 arguments, " ++ toString vs.length ++ " provided")

/-- The trim handler of the source table: the argument must be a string,
whose surrounding whitespace is stripped. -/
def stdTrim : List Value → Except String Expr
  | [v0] =>
    if !v0.isString then .error "\"trim\" function argument should be a string"
    else .ok (NewValue (.str ((toStringD v0).trim)))
  | vs => .error ("\"trim\" function expects 1 argument, " ++ toString vs.length ++ " provided")

/-- The len handler of the source table: element count of a slice, byte
count of a string, key count of a map; every other kind is an error. -/
def stdLen : List Value → Except String Expr
  | [v0] =>
    match v0 with
    | .list xs => .ok (NewValue (.int (xs.length : Int)))
    | .str s => .ok (NewValue (.int (s.utf8ByteSize : Int)))
    | .map kvs => .ok (NewValue (.int (kvs.length : Int)))
    | v => .error ("\"len\" function expects string, slice or map, " ++ valueToJson v ++ " provided")
  | vs => .error ("\"len\" function expects 1 argument, " ++ toString vs.length ++ " provided")

/-- The floor handler of the source table. -/
def stdFloor : List Value → Except String Expr
  | [v0] =>
    match floatValue v0 with
    | .error err => .error ("\"floor\" function expects a number, " ++ valueToJson v0 ++ " provided: " ++ err)
    | .ok q => .ok (NewValue (.int (Rat.floor q)))
  | vs => .error ("\"floor\" function expects 1 argument, " ++ toString vs.length ++ " provided")

/-- The ceil handler of the source table. -/
def stdCeil : List Value → Except String Expr
  | [v0] =>
    match floatValue v0 with
    | .error err => .error ("\"ceil\" function expects a number, " ++ valueToJson v0 ++ " provided: " ++ err)
    | .ok q => .ok (NewValue (.int (Rat.ceil q)))
  | vs => .error ("\"ceil\" function expects 1 argument, " ++ toString vs.length ++ " provided")

/-- Rounding half away from zero, as Go math.Round does. -/
def ratRound (q : Rat) : Int :=
  if q < 0 then -(Rat.floor (-q + 1 / 2)) else Rat.floor (q + 1 / 2)

/-- The round handler of the source table. -/
def stdRound : List Value → Except String Expr
  | [v0] =>
    match floatValue v0 with
    | .error err => .error ("\"round\" function expects a number, " ++ valueToJson v0 ++ " provided: " ++ err)
    | .ok q => .ok (NewValue (.int (ratRound q)))
  | vs => .error ("\"round\" function expects 1 argument, " ++ toString vs.length ++ " provided")

/-- Fuel-indexed chunking loop: consecutive sub-lists of length k+1, the
last one possibly shorter, exactly as the index loop of the source chunk
handler slices the list. -/
def chunksF {α : Type} : Nat → Nat → List α → List (List α)
  | 0, _, _ => []
  | _, _, [] => []
  | f + 1, k, x :: xs => (x :: xs).take (k + 1) :: chunksF f k (List.drop k xs)

/-- Chunks of the given positive size (the fuel of chunksF is ample). -/
def chunksOf {α : Type} (size : Nat) (l : List α) : List (List α) :=
  chunksF (l.length + 1) (size - 1) l

/-- The chunk handler of the source table: split a slice into consecutive
sub-slices of the given size; the size must be a positive integer. -/
def stdChunk : List Value → Except String Expr
  | [v0, v1] =>
    match sliceValue v0 with
    | .error err => .error ("\"chunk\" function expects 1st argument to be a list, " ++ valueToJson v0 ++ " provided: " ++ err)
    | .ok list =>
      match intValue v1 with
      | .error err => .error ("\"chunk\" function expects 2nd argument to be integer, " ++ valueToJson v1 ++ " provided: " ++ err)
      | .ok size =>
        if size ≤ 0 then
          .error ("\"chunk\" function expects 2nd argument to be >= 1, " ++ valueToJson v1 ++ " provided: <nil>")
        else .ok (NewValue (.list ((chunksOf size.toNat list).map .list)))
  | vs => .error ("\"chunk\" function expects 2 arguments, " ++ toString vs.length ++ " provided")

/-- The out-of-bounds error message of the at handler, citing the length of
the subject and the requested index. -/
def atBoundsMsg (n : Nat) (k : Int) : String :=
  "\"at\" function: error: out of bounds (length=" ++ toString n ++ ", index=" ++ toString k ++ ")"

/-- First-match lookup in a mapping. -/
def lookupKv (kvs : List (String × Value)) (k : String) : Option Value :=
  (kvs.find? (fun p => p.1 == k)).map (·.2)

/-- Byte of a string at a byte offset (Go string indexing). -/
def strByteAt (s : String) (k : Nat) : Nat :=
  (s.toUTF8.toList.map UInt8.toNat).getD k 0

/-- The at handler of the source table: strict integer indexing into slices
and strings with an out-of-bounds error, safe string-key lookup in maps
returning none on a miss. -/
def stdAt : List Value → Except String Expr
  | [v0, v1] =>
    match v0 with
    | .list xs =>
      match intValue v1 with
      | .error _ => .error ("\"at\" function expects 2nd argument to be number for list, " ++ valueToJson v1 ++ " provided")
      | .ok k =>
        if 0 ≤ k ∧ k < (xs.length : Int) then .ok (NewValue (xs.getD k.toNat .none))
        else .error (atBoundsMsg xs.length k)
    | .map kvs =>
      match lookupKv kvs (toStringD v1) with
      | some item => .ok (NewValue item)
      | Option.none => .ok (NewValue .none)
    | .str s =>
      match intValue v1 with
      | .error _ => .error ("\"at\" function expects 2nd argument to be number for string, " ++ valueToJson v1 ++ " provided")
      | .ok k =>
        if 0 ≤ k ∧ k < (s.utf8ByteSize : Int) then .ok (NewValue (.int (strByteAt s k.toNat : Int)))
        else .error (atBoundsMsg s.utf8ByteSize k)
    | v => .error ("\"at\" function can be performed only on lists, maps and strings: " ++ valueToJson v ++ " provided")
  | vs => .error ("\"at\" function expects 2 arguments, " ++ toString vs.length ++ " provided")

/-- The static payloads of a list of expressions, when every one of them is
fully reduced. -/
def allStatic : List Expr → Option (List Value)
  | [] => some []
  | e :: es =>
    match e.static? with
    | some v => (allStatic es).map (v :: ·)
    | Option.none => Option.none

/-- The final list construction of the map handler. The source serializes
the per-element results and compiles the textual form list(...); compilation
reduces a fully static call at once, so the model builds the call node
directly and reduces it when every element is static (sections 4.1 and 9 of
the spec make re-parsing and direct AST construction interchangeable). -/
def mkListCall (es : List Expr) : Expr :=
  match allStatic es with
  | some vs => .lit (.list vs)
  | Option.none => .call "list" es

/-- Per-element loop of the map handler: each element is resolved once in a
fresh scope carrying only the synthetic bindings of its own index, and the
first element error aborts with a message citing the index and element. -/
def mapLoop (rsv : Resolver) (e : Expr) : Nat → List Value → Except String (List Expr)
  | _, [] => .ok []
  | i, v :: rest =>
    match rsv (iterEnv i v) e with
    | .error err =>
      .error ("\"map\" function: error while mapping " ++ toString i ++ " index (" ++ valueToJson v ++ "): " ++ err)
    | .ok r => do
      let rs ← mapLoop rsv e (i + 1) rest
      .ok (r :: rs)

/-- The map handler of the source table, parameterized by the resolver the
engine supplies. The per-iteration re-compilation of the serialized
sub-expression is modelled as reuse of the compiled tree (spec section 9:
re-parsing and cloning the parsed sub-tree must behave identically). -/
def stdMapH (rsv : Resolver) : List Value → Except String Expr
  | [v0, v1] =>
    match sliceValue v0 with
    | .error err => .error ("\"map\" function expects 1st argument to be a list, " ++ valueToJson v0 ++ " provided: " ++ err)
    | .ok list =>
      match Compile (toStringD v1) with
      | .error err => .error ("\"map\" function expects 2nd argument to be valid expression, \x27" ++ valueToJson v1 ++ "\x27 provided: " ++ err)
      | .ok e =>
        match mapLoop rsv e 0 list with
        | .error err => .error err
        | .ok es => .ok (mkListCall es)
  | vs => .error ("\"map\" function expects 2 arguments, " ++ toString vs.length ++ " provided")

/-- Per-element loop of the filter handler: each element is resolved once in
a fresh scope; a still-symbolic result or a failing boolean conversion is an
error; elements whose result converts to true are kept in order. -/
def filterLoop (rsv : Resolver) (e : Expr) : Nat → List Value → Except String (List Value)
  | _, [] => .ok []
  | i, v :: rest =>
    match rsv (iterEnv i v) e with
    | .error err =>
      .error ("\"filter\" function: error while filtering " ++ toString i ++ " index (" ++ valueToJson v ++ "): " ++ err)
    | .ok r =>
      match r.static? with
      | Option.none =>
        .error ("\"filter\" function: could not resolve filter for " ++ toString i ++ " index (" ++ valueToJson v ++ "): " ++ exprRepr r)
      | some sv =>
        match boolValue sv with
        | .error err =>
          .error ("\"filter\" function: could not resolve filter for " ++ toString i ++ " index (" ++ valueToJson v ++ ") as boolean: " ++ err)
        | .ok b => do
          let rest' ← filterLoop rsv e (i + 1) rest
          .ok (if b then v :: rest' else rest')

/-- The filter handler of the source table, parameterized by the resolver
the engine supplies (same per-iteration scope isolation as map). -/
def stdFilterH (rsv : Resolver) : List Value → Except String Expr
  | [v0, v1] =>
    match sliceValue v0 with
    | .error err => .error ("\"filter\" function expects 1st argument to be a list, " ++ valueToJson v0 ++ " provided: " ++ err)
    | .ok list =>
      match Compile (toStringD v1) with
      | .error err => .error ("\"filter\" function expects 2nd argument to be valid expression, \x27" ++ valueToJson v1 ++ "\x27 provided: " ++ err)
      | .ok e =>
        match filterLoop rsv e 0 list with
        | .error err => .error err
        | .ok result => .ok (NewValue (.list result))
  | vs => .error ("\"filter\" function expects 2 arguments, " ++ toString vs.length ++ " provided")

/-- The eval handler of the source table: compile the argument and return
the fresh, not yet resolved expression. -/
def stdEvalFn : List Value → Except String Expr
  | [v0] =>
    match Compile (toStringD v0) with
    | .error err => .error ("\"eval\" function: " ++ valueToJson v0 ++ ": error: " ++ err)
    | .ok e => .ok e
  | vs => .error ("\"eval\" function expects 1 argument, " ++ toString vs.length ++ " provided")

/-- The jq handler of the source table: only the arity check is modelled;
the external gojq engine, its result iteration and its 10-second wall-clock
execution bound are outside the shallow embedding. -/
def stdJq : List Value → Except String Expr
  | [_, _] => .error "\"jq\" function: the external gojq engine is not modelled"
  | vs => .error ("\"jq\" function expects 2 arguments, " ++ toString vs.length ++ " provided")

/-- An entry of the standard-function table: the optimistic return type and
the handler (handlers that never resolve sub-expressions ignore the
resolver). -/
structure StdFunction where
  returnType : Ty
  handler : Resolver → List Value → Except String Expr

/-- The standard-function table of the source (the stdFunctions map), with
exactly its 24 names. -/
def stdFunctions : String → Option StdFunction
  | "string" => some ⟨.string, fun _ => stdString⟩
  | "list" => some ⟨.unknown, fun _ => stdList⟩
  | "join" => some ⟨.string, fun _ => stdJoin⟩
  | "split" => some ⟨.unknown, fun _ => stdSplitFn⟩
  | "int" => some ⟨.int64, fun _ => stdInt⟩
  | "bool" => some ⟨.bool, fun _ => stdBool⟩
  | "float" => some ⟨.float64, fun _ => stdFloat⟩
  | "tojson" => some ⟨.string, fun _ => stdTojson⟩
  | "json" => some ⟨.unknown, fun _ => stdJson⟩
  | "toyaml" => some ⟨.string, fun _ => stdToyaml⟩
  | "yaml" => some ⟨.unknown, fun _ => stdYaml⟩
  | "shellquote" => some ⟨.string, fun _ => stdShellquote⟩
  | "shellargs" => some ⟨.unknown, fun _ => stdShellargs⟩
  | "trim" => some ⟨.string, fun _ => stdTrim⟩
  | "len" => some ⟨.int64, fun _ => stdLen⟩
  | "floor" => some ⟨.int64, fun _ => stdFloor⟩
  | "ceil" => some ⟨.int64, fun _ => stdCeil⟩
  | "round" => some ⟨.int64, fun _ => stdRound⟩
  | "chunk" => some ⟨.unknown, fun _ => stdChunk⟩
  | "at" => some ⟨.unknown, fun _ => stdAt⟩
  | "map" => some ⟨.unknown, stdMapH⟩
  | "filter" => some ⟨.unknown, stdFilterH⟩
  | "eval" => some ⟨.unknown, fun _ => stdEvalFn⟩
  | "jq" => some ⟨.unknown, fun _ => stdJq⟩
  | _ => Option.none

/-- IsStdFunction of the source: membership in the standard-function
table. -/
def IsStdFunction (name : String) : Bool :=
  (stdFunctions name).isSome

/-- Modelled from the spec (section 4.3): one bottom-up resolution layer.
Literals are fixed points; an unbound variable reference stays symbolic
without error; a found binding is spliced in; an operator node with two
static operands reduces; a call whose arguments are all static dispatches to
the standard-function table and an unknown function name is an error, while
a call with a non-static argument stays symbolic. -/
def resolveStep (rsv : Resolver) : Resolver := fun env e =>
  match e with
  | .lit v => .ok (.lit v)
  | .var n =>
    match lookupEnv env n with
    | some v => .ok (.lit v)
    | Option.none => .ok (.var n)
  | .binop op a b => do
    let a' ← rsv env a
    let b' ← rsv env b
    match a'.static?, b'.static? with
    | some x, some y =>
      match binOpApply op x y with
      | .ok v => .ok (.lit v)
      | .error err => .error err
    | _, _ => .ok (.binop op a' b')
  | .call name args => do
    let args' ← args.mapM (rsv env)
    match allStatic args' with
    | some vals =>
      match stdFunctions name with
      | some fn => fn.handler rsv vals
      | Option.none => .error ("function \x27" ++ name ++ "\x27 not found")
    | Option.none => .ok (.call name args')

/-- Fuel-indexed resolver tower (the fuel bounds the depth of nested
resolution, including the recursive resolution map and filter perform). -/
def resolveF : Nat → Resolver
  | 0 => fun _ _ => .error "resolution: out of fuel"
  | f + 1 => resolveStep (resolveF f)

/-- Ample resolution depth for every claim under verification. -/
def resolutionFuel : Nat := 1000

/-- Modelled from the spec (sections 4.3 and 6): the Resolve entry point,
reducing an expression against the supplied bindings over the standard
library. -/
def Resolve (env : List (String × Value)) (e : Expr) : Except String Expr :=
  resolveF resolutionFuel env e

/-- The Get method of the stdMachine of the source: the standard-library
machine never resolves any variable and never errors. -/
def stdMachineGet (_ : String) : Option Expr × Bool × Option String :=
  (Option.none, false, Option.none)

/-- The Call method of the stdMachine of the source: a table hit invokes the
handler and reports handled; a name outside the table reports unhandled with
no error. -/
def stdMachineCall (name : String) (args : List Value) : Option Expr × Bool × Option String :=
  match stdFunctions name with
  | some fn =>
    match fn.handler (resolveF resolutionFuel) args with
    | .ok e => (some e, true, Option.none)
    | .error err => (Option.none, true, some err)
  | Option.none => (Option.none, false, Option.none)

example : resolveF 10 [] (.call "map" [.lit (.list [.int 1, .int 2, .int 3]), .lit (.str "_.value * 2")]) =
    .ok (.lit (.list [.int 2, .int 4, .int 6])) := rfl
example : resolveF 10 [] (.call "filter" [.lit (.list [.int 1, .int 2, .int 3, .int 4]), .lit (.str "_.value > 2")]) =
    .ok (.lit (.list [.int 3, .int 4])) := rfl
example : stdAt [.list [.int 1, .int 2, .int 3], .int 1] = .ok (.lit (.int 2)) := rfl
example : stdAt [.list [.int 1, .int 2, .int 3], .int 5] =
    .error (atBoundsMsg 3 5) := rfl
example : stdAt [.map [("a", .int 1)], .str "b"] = .ok (.lit .none) := rfl
example : stdChunk [.list [.int 1, .int 2, .int 3, .int 4, .int 5], .int 2] =
    .ok (.lit (.list [.list [.int 1, .int 2], .list [.int 3, .int 4], .list [.int 5]])) := rfl
example : stdLen [.str "hello"] = .ok (.lit (.int 5)) := rfl
example : stdJoin [.none] = .ok (.lit .none) := rfl
example : stdMachineCall "nosuch" [] = (Option.none, false, Option.none) := rfl
example : stdFilterH (resolveF 10) [.list [.int 1], .str "\"true\""] =
    .ok (.lit (.list [.int 1])) := rfl

/-- C1 counterexample: at the expression var x (not statically typed
float64), CastToFloat wraps the expression as a call to the int cast
function, which is neither the expression unchanged nor a call to the
float cast function, refuting the claim as stated. -/
theorem C1_counterexample :
    CastToFloat (.var "x") = .call "int" [.var "x"]
    ∧ Expr.call "int" [.var "x"] ≠ .var "x"
    ∧ Expr.call "int" [.var "x"] ≠ .call "float" [.var "x"] := by
  refine ⟨rfl, ?_, ?_⟩
  · intro h
    exact nomatch h
  · intro h
    injection h with h1 _
    exact absurd h1 (by decide)

/-- C1 (amended): CastToBool and CastToInt return the expression unchanged
exactly when it is statically typed bool and int64 respectively and
otherwise wrap it as a call to the corresponding cast function; CastToFloat
returns it unchanged exactly when statically typed float64 and otherwise
wraps it as a call to the int cast function (not the float one); CastToString
eagerly converts any static expression to a string literal of its textual
form, returns a string-typed expression unchanged, and otherwise wraps it as
a call to the string cast function. -/
theorem C1_castHelpers : ∀ v : Expr,
    (tyOf v = Ty.bool → CastToBool v = v)
    ∧ (tyOf v ≠ Ty.bool → CastToBool v = newCall boolCastStdFn [v])
    ∧ (tyOf v = Ty.int64 → CastToInt v = v)
    ∧ (tyOf v ≠ Ty.int64 → CastToInt v = newCall intCastStdFn [v])
    ∧ (tyOf v = Ty.float64 → CastToFloat v = v)
    ∧ (tyOf v ≠ Ty.float64 → CastToFloat v = newCall intCastStdFn [v])
    ∧ (∀ sv, v.static? = some sv → CastToString v = .lit (.str (toStringD sv)))
    ∧ (v.static? = Option.none → tyOf v = Ty.string → CastToString v = v)
    ∧ (v.static? = Option.none → tyOf v ≠ Ty.string →
        CastToString v = newCall stringCastStdFn [v]) := by
  intro v
  refine ⟨?_, ?_, ?_, ?_, ?_, ?_, ?_, ?_, ?_⟩
  · intro h
    simp [CastToBool, h]
  · intro h
    simp [CastToBool, h]
  · intro h
    simp [CastToInt, h]
  · intro h
    simp [CastToInt, h]
  · intro h
    simp [CastToFloat, h]
  · intro h
    simp [CastToFloat, h]
  · intro sv h
    simp [CastToString, h, NewStringValue]
  · intro h h2
    simp [CastToString, h, h2]
  · intro h h2
    simp [CastToString, h, h2]

/-- C1 witness: the amended characterization applied at concrete
expressions of each relevant shape. -/
theorem C1_castHelpers_witness :
    CastToBool (.lit (.bool true)) = .lit (.bool true)
    ∧ CastToFloat (.var "x") = newCall intCastStdFn [.var "x"]
    ∧ CastToString (.lit (.int 5)) = .lit (.str "5") := by
  refine ⟨(C1_castHelpers (.lit (.bool true))).1 rfl, ?_, ?_⟩
  · exact (C1_castHelpers (.var "x")).2.2.2.2.2.1 (by decide)
  · exact ((C1_castHelpers (.lit (.int 5))).2.2.2.2.2.2.1 (.int 5) rfl).trans rfl

/-- C3 counterexample: a none first argument is not a sequence, yet join
returns it unchanged with no error, refuting the claim that every
non-sequence first argument yields an error. -/
theorem C3_counterexample :
    stdJoin [Value.none] = .ok (.lit .none) ∧ Value.isNone Value.none = true
    ∧ Value.isSlice Value.none = false := ⟨rfl, rfl, rfl⟩

/-- C3 (amended): with 1-2 arguments, a none first argument is returned
unchanged with no error; every other non-sequence first argument is an
error (the only non-arity, non-none failure condition); a sequence joins
the textual forms of its elements with the separator (comma by default,
else the textual form of the second argument); any other argument count is
an arity error. -/
theorem C3_join :
    (∀ v0 : Value, v0.isNone = true →
      stdJoin [v0] = .ok (.lit v0) ∧ ∀ v1, stdJoin [v0, v1] = .ok (.lit v0))
    ∧ (∀ v0 : Value, v0.isNone = false → v0.isSlice = false →
      (∃ msg, stdJoin [v0] = .error msg) ∧ ∀ v1, ∃ msg, stdJoin [v0, v1] = .error msg)
    ∧ (∀ xs : List Value,
      stdJoin [.list xs] = .ok (.lit (.str (String.intercalate "," (xs.map toStringD)))))
    ∧ (∀ (xs : List Value) (v1 : Value),
      stdJoin [.list xs, v1] = .ok (.lit (.str (String.intercalate (toStringD v1) (xs.map toStringD)))))
    ∧ (∀ args : List Value, args.length = 0 ∨ 2 < args.length →
      ∃ msg, stdJoin args = .error msg) := by
  refine ⟨?_, ?_, ?_, ?_, ?_⟩
  · intro v0 h
    cases v0 <;> simp_all [Value.isNone, stdJoin, stdJoinWith, NewValue]
  · intro v0 h h2
    constructor
    · cases v0 <;> simp_all [Value.isNone, Value.isSlice, stdJoin, stdJoinWith]
    · intro v1
      cases v0 <;> simp_all [Value.isNone, Value.isSlice, stdJoin, stdJoinWith]
  · intro xs
    rfl
  · intro xs v1
    rfl
  · intro args h
    match args, h with
    | [], _ => exact ⟨_, rfl⟩
    | a :: b :: c :: rest, _ => exact ⟨_, rfl⟩
    | [a], h | [a, b], h => simp at h

/-- C3 witness: the amended characterization applied at concrete inputs
(none passes through beside a second argument; an int first argument is an
error; the empty argument list is an arity error). -/
theorem C3_join_witness :
    stdJoin [Value.none, Value.int 0] = .ok (.lit .none)
    ∧ (∃ msg, stdJoin [Value.int 5] = .error msg)
    ∧ (∃ msg, stdJoin [] = .error msg) :=
  ⟨(C3_join.1 Value.none rfl).2 (Value.int 0),
   (C3_join.2.1 (Value.int 5) rfl rfl).1,
   C3_join.2.2.2.2 [] (Or.inl rfl)⟩

/-- C8: the string, list and shellquote handlers are total on every
argument list: string concatenates the textual form of all arguments, list
builds a sequence of their payloads, shellquote shell-escapes and joins
their textual forms; none of the three can return an error. -/
theorem C8_totalBuilders : ∀ args : List Value,
    stdString args = .ok (.lit (.str (args.foldl (fun str v => str ++ toStringD v) "")))
    ∧ stdList args = .ok (.lit (.list args))
    ∧ stdShellquote args = .ok (.lit (.str (shellquoteJoin (args.map toStringD)))) :=
  fun _ => ⟨rfl, rfl, rfl⟩

/-- C9: len returns the element count of a sequence, the byte count of a
string and the key count of a mapping, and errors on every other kind of
single argument; the spec examples evaluate as stated. -/
theorem C9_len :
    (∀ xs : List Value, stdLen [.list xs] = .ok (.lit (.int (xs.length : Int))))
    ∧ (∀ s : String, stdLen [.str s] = .ok (.lit (.int (s.utf8ByteSize : Int))))
    ∧ (∀ kvs : List (String × Value), stdLen [.map kvs] = .ok (.lit (.int (kvs.length : Int))))
    ∧ (∀ v : Value, v.isSlice = false → v.isString = false → v.isMap = false →
      stdLen [v] = .error ("\"len\" function expects string, slice or map, " ++ valueToJson v ++ " provided"))
    ∧ stdLen [.str "hello"] = .ok (.lit (.int 5))
    ∧ stdLen [.list [.int 1, .int 2, .int 3]] = .ok (.lit (.int 3))
    ∧ stdLen [.map [("a", .int 1), ("b", .int 2)]] = .ok (.lit (.int 2)) := by
  refine ⟨fun _ => rfl, fun _ => rfl, fun _ => rfl, ?_, rfl, rfl, rfl⟩
  intro v h1 h2 h3
  cases v <;> simp_all [Value.isSlice, Value.isString, Value.isMap, stdLen]

/-- C9 witness: the kind-error case applied at a concrete int argument,
together with one evaluated example. -/
theorem C9_len_witness :
    stdLen [Value.int 7] = .error ("\"len\" function expects string, slice or map, " ++ valueToJson (Value.int 7) ++ " provided")
    ∧ stdLen [Value.str "hello"] = .ok (.lit (.int 5)) :=
  ⟨C9_len.2.2.2.1 (Value.int 7) rfl rfl rfl, C9_len.2.2.2.2.1⟩

/-- C10: the standard-library machine resolves no variable at all (Get is
always nil, not found, no error) and its Call leaves every name outside the
function table unhandled with no error, so unknown names fall through the
lookup chain rather than failing here. -/
theorem C10_stdMachine :
    (∀ name, stdMachineGet name = (Option.none, false, Option.none))
    ∧ (∀ name args, stdFunctions name = Option.none →
      stdMachineCall name args = (Option.none, false, Option.none)) := by
  refine ⟨fun _ => rfl, ?_⟩
  intro name args h
  simp [stdMachineCall, h]

/-- C10 witness: a name outside the table at the machine interface. -/
theorem C10_stdMachine_witness :
    stdMachineGet "frobnicate" = (Option.none, false, Option.none)
    ∧ stdMachineCall "frobnicate" [Value.int 1] = (Option.none, false, Option.none) :=
  ⟨C10_stdMachine.1 "frobnicate", C10_stdMachine.2 "frobnicate" [Value.int 1] rfl⟩

/-- Data of an appended string is the appended data. -/
theorem str_data_append (a b : String) : (a ++ b).data = a.data ++ b.data := rfl

/-- C2: for a sequence (or string) first argument, an out-of-bounds integer
index makes at return the out-of-bounds error whose message cites both the
length and the requested index; for a mapping first argument an absent key
makes at return none with no error; and at(list(1,2,3), 1) resolves to 2. -/
theorem C2_at :
    (∀ (xs : List Value) (k : Int), (k < 0 ∨ (xs.length : Int) ≤ k) →
      stdAt [.list xs, .int k] = .error (atBoundsMsg xs.length k)
      ∧ (toString xs.length).data <:+: (atBoundsMsg xs.length k).data
      ∧ (toString k).data <:+: (atBoundsMsg xs.length k).data)
    ∧ (∀ (s : String) (k : Int), (k < 0 ∨ (s.utf8ByteSize : Int) ≤ k) →
      stdAt [.str s, .int k] = .error (atBoundsMsg s.utf8ByteSize k)
      ∧ (toString s.utf8ByteSize).data <:+: (atBoundsMsg s.utf8ByteSize k).data
      ∧ (toString k).data <:+: (atBoundsMsg s.utf8ByteSize k).data)
    ∧ (∀ (kvs : List (String × Value)) (key : String), lookupKv kvs key = Option.none →
      stdAt [.map kvs, .str key] = .ok (.lit .none))
    ∧ stdAt [.list [.int 1, .int 2, .int 3], .int 1] = .ok (.lit (.int 2)) := by
  refine ⟨?_, ?_, ?_, rfl⟩
  · intro xs k h
    refine ⟨?_, ?_, ?_⟩
    · simp only [stdAt, intValue]
      rw [if_neg (by omega)]
    · exact ⟨"\"at\" function: error: out of bounds (length=".data,
        (", index=" ++ toString k ++ ")").data,
        by simp [atBoundsMsg, str_data_append, List.append_assoc]⟩
    · exact ⟨("\"at\" function: error: out of bounds (length=" ++ toString xs.length ++ ", index=").data,
        ")".data,
        by simp [atBoundsMsg, str_data_append, List.append_assoc]⟩
  · intro s k h
    refine ⟨?_, ?_, ?_⟩
    · simp only [stdAt, intValue]
      rw [if_neg (by omega)]
    · exact ⟨"\"at\" function: error: out of bounds (length=".data,
        (", index=" ++ toString k ++ ")").data,
        by simp [atBoundsMsg, str_data_append, List.append_assoc]⟩
    · exact ⟨("\"at\" function: error: out of bounds (length=" ++ toString s.utf8ByteSize ++ ", index=").data,
        ")".data,
        by simp [atBoundsMsg, str_data_append, List.append_assoc]⟩
  · intro kvs key h
    simp [stdAt, toStringD, h, NewValue]

/-- C2 witness: the out-of-bounds error at index 5 of a three-element list,
the none result for a missing mapping key, and the in-bounds example. -/
theorem C2_at_witness :
    stdAt [.list [.int 1, .int 2, .int 3], .int 5] = .error (atBoundsMsg 3 5)
    ∧ stdAt [.map [("a", .int 1)], .str "b"] = .ok (.lit .none)
    ∧ stdAt [.list [.int 1, .int 2, .int 3], .int 1] = .ok (.lit (.int 2)) :=
  ⟨(C2_at.1 [.int 1, .int 2, .int 3] 5 (Or.inr (by decide))).1,
   C2_at.2.2.1 [("a", .int 1)] "b" rfl,
   C2_at.2.2.2⟩

/-- Chunking the empty list yields no chunks at any fuel. -/
theorem chunksF_nil {α : Type} (f k : Nat) : chunksF f k ([] : List α) = [] := by
  cases f <;> rfl

/-- With ample fuel, concatenating the chunks restores the original list. -/
theorem chunksF_join {α : Type} : ∀ (f k : Nat) (l : List α), l.length < f →
    (chunksF f k l).flatten = l := by
  intro f
  induction f with
  | zero =>
    intro k l h
    simp at h
  | succ f ih =>
    intro k l h
    match l with
    | [] => rfl
    | x :: xs =>
      have hd : (List.drop k xs).length < f := by
        simp only [List.length_drop]
        simp at h
        omega
      show ((x :: xs).take (k + 1) ++ (chunksF f k (List.drop k xs)).flatten) = x :: xs
      rw [ih k _ hd, List.take_succ_cons, List.cons_append, List.take_append_drop]

/-- With ample fuel, every chunk is nonempty and no longer than the chunk
size. -/
theorem chunksF_mem {α : Type} : ∀ (f k : Nat) (l : List α), l.length < f →
    ∀ c ∈ chunksF f k l, 1 ≤ c.length ∧ c.length ≤ k + 1 := by
  intro f
  induction f with
  | zero =>
    intro k l h
    simp at h
  | succ f ih =>
    intro k l h c hc
    match l with
    | [] => simp [chunksF_nil] at hc
    | x :: xs =>
      have hd : (List.drop k xs).length < f := by
        simp only [List.length_drop]
        simp at h
        omega
      have hc' : c = (x :: xs).take (k + 1) ∨ c ∈ chunksF f k (List.drop k xs) := by
        simpa [chunksF] using hc
      rcases hc' with hc' | hc'
      · subst hc'
        simp [List.length_take]
      · exact ih k _ hd c hc'

/-- With ample fuel, every chunk except possibly the last has exactly the
chunk size. -/
theorem chunksF_dropLast {α : Type} : ∀ (f k : Nat) (l : List α), l.length < f →
    ∀ c ∈ (chunksF f k l).dropLast, c.length = k + 1 := by
  intro f
  induction f with
  | zero =>
    intro k l h
    simp at h
  | succ f ih =>
    intro k l h c hc
    match l with
    | [] => simp [chunksF_nil] at hc
    | x :: xs =>
      have hd : (List.drop k xs).length < f := by
        simp only [List.length_drop]
        simp at h
        omega
      by_cases ht : List.drop k xs = []
      · have hnil : chunksF f k (List.drop k xs) = [] := by
          rw [ht]
          exact chunksF_nil f k
        simp [chunksF, hnil] at hc
      · have tne : chunksF f k (List.drop k xs) ≠ [] := by
          obtain ⟨y, ys, hys⟩ := List.exists_cons_of_ne_nil ht
          match f, hd with
          | f' + 1, _ =>
            rw [hys]
            simp [chunksF]
        have hxs : k < xs.length := by
          have hlen : (List.drop k xs).length ≠ 0 := by
            intro h0
            exact ht (List.eq_nil_of_length_eq_zero h0)
          simp only [List.length_drop] at hlen
          omega
        have hsplit : c = (x :: xs).take (k + 1) ∨ c ∈ (chunksF f k (List.drop k xs)).dropLast := by
          have hstep : chunksF (f + 1) k (x :: xs) =
              (x :: xs).take (k + 1) :: chunksF f k (List.drop k xs) := rfl
          rw [hstep, List.dropLast_cons_of_ne_nil tne] at hc
          simpa using hc
        rcases hsplit with hsplit | hsplit
        · subst hsplit
          simp [List.length_take]
          omega
        · exact ih k _ hd c hsplit

/-- C6: for every sequence and integer size at least 1, chunk returns the
consecutive sub-sequences of that size (their concatenation restores the
input, every chunk before the last has exactly the given size, every chunk
is nonempty and no longer than the size); a non-positive size or a
non-sequence first argument is an error; and chunk(list(1,2,3,4,5), 2)
resolves to the three chunks of the spec example. -/
theorem C6_chunk :
    (∀ (l : List Value) (size : Int), 1 ≤ size →
      stdChunk [.list l, .int size] = .ok (.lit (.list ((chunksOf size.toNat l).map .list)))
      ∧ (chunksOf size.toNat l).flatten = l
      ∧ (∀ c ∈ (chunksOf size.toNat l).dropLast, c.length = size.toNat)
      ∧ (∀ c ∈ chunksOf size.toNat l, 1 ≤ c.length ∧ c.length ≤ size.toNat))
    ∧ (∀ (l : List Value) (size : Int), size ≤ 0 →
      ∃ msg, stdChunk [.list l, .int size] = .error msg)
    ∧ (∀ v0 v1 : Value, v0.isSlice = false → ∃ msg, stdChunk [v0, v1] = .error msg)
    ∧ stdChunk [.list [.int 1, .int 2, .int 3, .int 4, .int 5], .int 2] =
        .ok (.lit (.list [.list [.int 1, .int 2], .list [.int 3, .int 4], .list [.int 5]])) := by
  refine ⟨?_, ?_, ?_, rfl⟩
  · intro l size h
    have hsz : size.toNat - 1 + 1 = size.toNat := by omega
    refine ⟨?_, ?_, ?_, ?_⟩
    · simp only [stdChunk, sliceValue, intValue]
      rw [if_neg (by omega)]
      rfl
    · exact chunksF_join (l.length + 1) (size.toNat - 1) l (by omega)
    · intro c hc
      have := chunksF_dropLast (l.length + 1) (size.toNat - 1) l (by omega) c hc
      omega
    · intro c hc
      have := chunksF_mem (l.length + 1) (size.toNat - 1) l (by omega) c hc
      omega
  · intro l size h
    have hstep : stdChunk [.list l, .int size] =
        .error ("\"chunk\" function expects 2nd argument to be >= 1, " ++ valueToJson (.int size) ++ " provided: <nil>") := by
      simp only [stdChunk, sliceValue, intValue]
      rw [if_pos (by omega)]
    exact ⟨_, hstep⟩
  · intro v0 v1 h
    cases v0 <;> simp_all [Value.isSlice, stdChunk, sliceValue]

/-- C6 witness: the general characterization applied to the spec example
with size 2, and the error at size 0. -/
theorem C6_chunk_witness :
    stdChunk [.list [.int 1, .int 2, .int 3, .int 4, .int 5], .int 2] =
      .ok (.lit (.list ((chunksOf 2 [Value.int 1, Value.int 2, Value.int 3, Value.int 4, Value.int 5]).map Value.list)))
    ∧ (chunksOf 2 [Value.int 1, Value.int 2, Value.int 3, Value.int 4, Value.int 5]).flatten =
        [Value.int 1, Value.int 2, Value.int 3, Value.int 4, Value.int 5]
    ∧ (∃ msg, stdChunk [.list [], .int 0] = .error msg) :=
  ⟨(C6_chunk.1 [Value.int 1, Value.int 2, Value.int 3, Value.int 4, Value.int 5] 2 (by decide)).1,
   (C6_chunk.1 [Value.int 1, Value.int 2, Value.int 3, Value.int 4, Value.int 5] 2 (by decide)).2.1,
   C6_chunk.2.1 [] 0 (by decide)⟩

/-- When every element of the list resolves (in its own fresh scope) to the
corresponding expression of es, the map loop returns exactly es in order. -/
theorem mapLoop_ok (rsv : Resolver) (e : Expr) :
    ∀ (l : List Value) (i : Nat) (es : List Expr) (hlen : es.length = l.length),
      (∀ j (hj : j < l.length), rsv (iterEnv (i + j) (l.get ⟨j, hj⟩)) e = .ok (es.get ⟨j, by omega⟩)) →
      mapLoop rsv e i l = .ok es := by
  intro l
  induction l with
  | nil =>
    intro i es hlen hall
    cases es with
    | nil => rfl
    | cons r es' => simp at hlen
  | cons v rest ih =>
    intro i es hlen hall
    cases es with
    | nil => simp at hlen
    | cons r es' =>
      have h0 : rsv (iterEnv i v) e = .ok r := by
        have := hall 0 (by simp)
        simpa using this
      have hrest : mapLoop rsv e (i + 1) rest = .ok es' := by
        refine ih (i + 1) es' (by simpa using hlen) ?_
        intro j hj
        have := hall (j + 1) (by simpa using Nat.succ_lt_succ hj)
        have heq : i + (j + 1) = (i + 1) + j := by omega
        rw [heq] at this
        simpa using this
      simp only [mapLoop, h0, hrest]
      rfl

/-- A fully literal argument list makes the final list construction of map
reduce to the static sequence of the underlying values. -/
theorem mkListCall_lits (vs : List Value) : mkListCall (vs.map Expr.lit) = .lit (.list vs) := by
  have h : allStatic (vs.map Expr.lit) = some vs := by
    induction vs with
    | nil => rfl
    | cons v vs ih => simp [allStatic, ih, Expr.static?]
  simp [mkListCall, h]

/-- When every element before position i resolves and element i fails, the
map loop fails with the message citing position i and its element. -/
theorem mapLoop_error (rsv : Resolver) (e : Expr) :
    ∀ (l : List Value) (i0 i : Nat) (hi : i < l.length) (err : String),
      (∀ j (hj : j < i), ∃ r, rsv (iterEnv (i0 + j) (l.get ⟨j, by omega⟩)) e = .ok r) →
      rsv (iterEnv (i0 + i) (l.get ⟨i, hi⟩)) e = .error err →
      mapLoop rsv e i0 l = .error
        ("\"map\" function: error while mapping " ++ toString (i0 + i) ++ " index (" ++ valueToJson (l.get ⟨i, hi⟩) ++ "): " ++ err) := by
  intro l
  induction l with
  | nil =>
    intro i0 i hi
    simp at hi
  | cons v rest ih =>
    intro i0 i hi err hpre herr
    cases i with
    | zero =>
      have h0 : rsv (iterEnv i0 v) e = .error err := by simpa using herr
      simp only [mapLoop, h0]
      simp
    | succ i' =>
      obtain ⟨r, hr⟩ := hpre 0 (Nat.succ_pos i')
      have hr' : rsv (iterEnv i0 v) e = .ok r := by simpa using hr
      have hi' : i' < rest.length := by simpa using hi
      have hrest := ih (i0 + 1) i' hi' err ?_ ?_
      · simp only [mapLoop, hr', hrest]
        have heq : i0 + 1 + i' = i0 + (i' + 1) := by omega
        simp [heq]
        rfl
      · intro j hj
        obtain ⟨r2, hr2⟩ := hpre (j + 1) (Nat.succ_lt_succ hj)
        have heq : i0 + (j + 1) = (i0 + 1) + j := by omega
        rw [heq] at hr2
        exact ⟨r2, by simpa using hr2⟩
      · have heq : i0 + (i' + 1) = (i0 + 1) + i' := by omega
        rw [heq] at herr
        simpa using herr

/-- C4: for every sequence and expression string, map compiles the string
(failing with the compile-error message when it does not compile), then
resolves the compiled expression once per element in a fresh isolated scope
holding only the synthetic bindings of that iteration, collecting the
per-element results into a new sequence in order, and propagating the first
per-element resolution error with its index and element. -/
theorem C4_map : ∀ (rsv : Resolver) (l : List Value) (s : String),
    (∀ msg, Compile s = .error msg →
      stdMapH rsv [.list l, .str s] =
        .error ("\"map\" function expects 2nd argument to be valid expression, \x27" ++ valueToJson (.str s) ++ "\x27 provided: " ++ msg))
    ∧ (∀ e, Compile s = .ok e →
      (∀ (vs : List Value) (hlen : vs.length = l.length),
        (∀ i (hi : i < l.length), rsv (iterEnv i (l.get ⟨i, hi⟩)) e = .ok (.lit (vs.get ⟨i, by omega⟩))) →
        stdMapH rsv [.list l, .str s] = .ok (.lit (.list vs)))
      ∧ (∀ i (hi : i < l.length) (err : String),
        (∀ j (hj : j < i), ∃ r, rsv (iterEnv j (l.get ⟨j, by omega⟩)) e = .ok r) →
        rsv (iterEnv i (l.get ⟨i, hi⟩)) e = .error err →
        stdMapH rsv [.list l, .str s] =
          .error ("\"map\" function: error while mapping " ++ toString i ++ " index (" ++ valueToJson (l.get ⟨i, hi⟩) ++ "): " ++ err))) := by
  intro rsv l s
  refine ⟨?_, ?_⟩
  · intro msg hmsg
    simp only [stdMapH, sliceValue, toStringD, hmsg]
  · intro e he
    constructor
    · intro vs hlen hall
      have hloop : mapLoop rsv e 0 l = .ok (vs.map Expr.lit) := by
        refine mapLoop_ok rsv e l 0 (vs.map Expr.lit) (by simpa using hlen) ?_
        intro j hj
        have := hall j hj
        simpa [List.get_eq_getElem, List.getElem_map, Nat.zero_add] using this
      simp only [stdMapH, sliceValue, toStringD, he, hloop, mkListCall_lits]
    · intro i hi err hpre herr
      have hloop := mapLoop_error rsv e l 0 i hi err ?_ ?_
      · simp only [stdMapH, sliceValue, toStringD, he, hloop]
        simp
      · intro j hj
        obtain ⟨r, hr⟩ := hpre j hj
        exact ⟨r, by simpa [Nat.zero_add] using hr⟩
      · simpa [Nat.zero_add] using herr

/-- C4 witness: the spec example, map(list(1,2,3), expression doubling the
bound value) resolving to the sequence 2, 4, 6 through the modelled
resolver, and the compile-failure case at an unparsable string. -/
theorem C4_map_witness :
    stdMapH (resolveF 10) [.list [.int 1, .int 2, .int 3], .str "_.value * 2"] =
      .ok (.lit (.list [.int 2, .int 4, .int 6]))
    ∧ stdMapH (resolveF 10) [.list [.int 1], .str "list(1,"] =
      .error ("\"map\" function expects 2nd argument to be valid expression, \x27" ++ valueToJson (.str "list(1,") ++ "\x27 provided: " ++ "parser: unexpected token") := by
  constructor
  · exact ((C4_map (resolveF 10) [.int 1, .int 2, .int 3] "_.value * 2").2
      (.binop "*" (.var "_.value") (.lit (.int 2))) rfl).1
      [.int 2, .int 4, .int 6] rfl
      (fun i hi => by
        have h3 : i < 3 := by simpa using hi
        interval_cases i <;> rfl)
  · exact (C4_map (resolveF 10) [.int 1] "list(1,").1 "parser: unexpected token" rfl

/-- Keeping exactly the elements whose flag is true, in order (the
specification-side description of filtering). -/
def filterByFlags : List Value → List Bool → List Value
  | [], _ => []
  | _ :: _, [] => []
  | v :: vs, b :: bs => if b then v :: filterByFlags vs bs else filterByFlags vs bs

/-- When every element of the list resolves in its own fresh scope to a
static value whose boolean conversion is the corresponding flag, the filter
loop keeps exactly the elements with a true flag, in order. -/
theorem filterLoop_ok (rsv : Resolver) (e : Expr) :
    ∀ (l : List Value) (i : Nat) (bs : List Bool) (hlen : bs.length = l.length),
      (∀ j (hj : j < l.length), ∃ sv, rsv (iterEnv (i + j) (l.get ⟨j, hj⟩)) e = .ok (.lit sv)
        ∧ boolValue sv = .ok (bs.get ⟨j, by omega⟩)) →
      filterLoop rsv e i l = .ok (filterByFlags l bs) := by
  intro l
  induction l with
  | nil =>
    intro i bs hlen hall
    cases bs with
    | nil => rfl
    | cons b bs' => simp at hlen
  | cons v rest ih =>
    intro i bs hlen hall
    cases bs with
    | nil => simp at hlen
    | cons b bs' =>
      obtain ⟨sv, hsv, hb⟩ := hall 0 (by simp)
      have hsv' : rsv (iterEnv i v) e = .ok (.lit sv) := by simpa using hsv
      have hb' : boolValue sv = .ok b := by simpa using hb
      have hrest : filterLoop rsv e (i + 1) rest = .ok (filterByFlags rest bs') := by
        refine ih (i + 1) bs' (by simpa using hlen) ?_
        intro j hj
        obtain ⟨sv2, hsv2, hb2⟩ := hall (j + 1) (by simpa using Nat.succ_lt_succ hj)
        have heq : i + (j + 1) = (i + 1) + j := by omega
        rw [heq] at hsv2
        exact ⟨sv2, by simpa using hsv2, by simpa using hb2⟩
      simp only [filterLoop, hsv', Expr.static?, hb', hrest]
      rfl

/-- When every element before position i converts to a boolean and the
result at position i is still symbolic, the filter loop fails with the
could-not-resolve message citing that position and element. -/
theorem filterLoop_err_symbolic (rsv : Resolver) (e : Expr) :
    ∀ (l : List Value) (i0 i : Nat) (hi : i < l.length) (r : Expr),
      (∀ j (hj : j < i), ∃ sv b, rsv (iterEnv (i0 + j) (l.get ⟨j, by omega⟩)) e = .ok (.lit sv)
        ∧ boolValue sv = .ok b) →
      rsv (iterEnv (i0 + i) (l.get ⟨i, hi⟩)) e = .ok r → r.static? = Option.none →
      filterLoop rsv e i0 l = .error
        ("\"filter\" function: could not resolve filter for " ++ toString (i0 + i) ++ " index (" ++ valueToJson (l.get ⟨i, hi⟩) ++ "): " ++ exprRepr r) := by
  intro l
  induction l with
  | nil =>
    intro i0 i hi
    simp at hi
  | cons v rest ih =>
    intro i0 i hi r hpre hr hstat
    cases i with
    | zero =>
      have h0 : rsv (iterEnv i0 v) e = .ok r := by simpa using hr
      simp only [filterLoop, h0, hstat]
      simp
    | succ i' =>
      obtain ⟨sv, b, hsv, hb⟩ := hpre 0 (Nat.succ_pos i')
      have hsv' : rsv (iterEnv i0 v) e = .ok (.lit sv) := by simpa using hsv
      have hi' : i' < rest.length := by simpa using hi
      have hrest := ih (i0 + 1) i' hi' r ?_ ?_ hstat
      · simp only [filterLoop, hsv', Expr.static?, hb, hrest]
        have heq : i0 + 1 + i' = i0 + (i' + 1) := by omega
        simp [heq]
        rfl
      · intro j hj
        obtain ⟨sv2, b2, hsv2, hb2⟩ := hpre (j + 1) (Nat.succ_lt_succ hj)
        have heq : i0 + (j + 1) = (i0 + 1) + j := by omega
        rw [heq] at hsv2
        exact ⟨sv2, b2, by simpa using hsv2, hb2⟩
      · have heq : i0 + (i' + 1) = (i0 + 1) + i' := by omega
        rw [heq] at hr
        simpa using hr

/-- When every element before position i converts to a boolean and the
static result at position i fails the boolean conversion, the filter loop
fails with the as-boolean message citing that position and element. -/
theorem filterLoop_err_bool (rsv : Resolver) (e : Expr) :
    ∀ (l : List Value) (i0 i : Nat) (hi : i < l.length) (sv : Value) (err : String),
      (∀ j (hj : j < i), ∃ sv2 b, rsv (iterEnv (i0 + j) (l.get ⟨j, by omega⟩)) e = .ok (.lit sv2)
        ∧ boolValue sv2 = .ok b) →
      rsv (iterEnv (i0 + i) (l.get ⟨i, hi⟩)) e = .ok (.lit sv) → boolValue sv = .error err →
      filterLoop rsv e i0 l = .error
        ("\"filter\" function: could not resolve filter for " ++ toString (i0 + i) ++ " index (" ++ valueToJson (l.get ⟨i, hi⟩) ++ ") as boolean: " ++ err) := by
  intro l
  induction l with
  | nil =>
    intro i0 i hi
    simp at hi
  | cons v rest ih =>
    intro i0 i hi sv err hpre hr hbool
    cases i with
    | zero =>
      have h0 : rsv (iterEnv i0 v) e = .ok (.lit sv) := by simpa using hr
      simp only [filterLoop, h0, Expr.static?, hbool]
      simp
    | succ i' =>
      obtain ⟨sv2, b, hsv, hb⟩ := hpre 0 (Nat.succ_pos i')
      have hsv' : rsv (iterEnv i0 v) e = .ok (.lit sv2) := by simpa using hsv
      have hi' : i' < rest.length := by simpa using hi
      have hrest := ih (i0 + 1) i' hi' sv err ?_ ?_ hbool
      · simp only [filterLoop, hsv', Expr.static?, hb, hrest]
        have heq : i0 + 1 + i' = i0 + (i' + 1) := by omega
        simp [heq]
        rfl
      · intro j hj
        obtain ⟨sv3, b3, hsv3, hb3⟩ := hpre (j + 1) (Nat.succ_lt_succ hj)
        have heq : i0 + (j + 1) = (i0 + 1) + j := by omega
        rw [heq] at hsv3
        exact ⟨sv3, b3, by simpa using hsv3, hb3⟩
      · have heq : i0 + (i' + 1) = (i0 + 1) + i' := by omega
        rw [heq] at hr
        simpa using hr

/-- C5 counterexample: filtering list(1) with the predicate string literal
true makes every per-element predicate resolve to the static string true,
which is not of boolean kind, yet filter keeps the element and returns the
sequence with no error, refuting the claim that a predicate resolved to a
non-boolean is always an error. -/
theorem C5_counterexample :
    stdFilterH (resolveF 10) [.list [.int 1], .str "\"true\""] = .ok (.lit (.list [.int 1]))
    ∧ Compile "\"true\"" = .ok (.lit (.str "true"))
    ∧ resolveF 10 (iterEnv 0 (.int 1)) (.lit (.str "true")) = .ok (.lit (.str "true"))
    ∧ tyOfValue (.str "true") ≠ Ty.bool := by
  refine ⟨rfl, rfl, rfl, by decide⟩

/-- C5 (amended): filter keeps exactly the elements (in order) whose
per-element predicate result converts to boolean true under the value
model's boolean conversion, and returns an error when the per-element
result is still symbolic after resolution or when its boolean conversion
fails; a non-boolean result whose conversion succeeds (such as the string
true) is kept or dropped by its converted value rather than erroring. -/
theorem C5_filter : ∀ (rsv : Resolver) (l : List Value) (s : String),
    (∀ e, Compile s = .ok e →
      (∀ (bs : List Bool) (hlen : bs.length = l.length),
        (∀ i (hi : i < l.length), ∃ sv, rsv (iterEnv i (l.get ⟨i, hi⟩)) e = .ok (.lit sv)
          ∧ boolValue sv = .ok (bs.get ⟨i, by omega⟩)) →
        stdFilterH rsv [.list l, .str s] = .ok (.lit (.list (filterByFlags l bs))))
      ∧ (∀ i (hi : i < l.length) (r : Expr),
        (∀ j (hj : j < i), ∃ sv b, rsv (iterEnv j (l.get ⟨j, by omega⟩)) e = .ok (.lit sv)
          ∧ boolValue sv = .ok b) →
        rsv (iterEnv i (l.get ⟨i, hi⟩)) e = .ok r → r.static? = Option.none →
        stdFilterH rsv [.list l, .str s] = .error
          ("\"filter\" function: could not resolve filter for " ++ toString i ++ " index (" ++ valueToJson (l.get ⟨i, hi⟩) ++ "): " ++ exprRepr r))
      ∧ (∀ i (hi : i < l.length) (sv : Value) (err : String),
        (∀ j (hj : j < i), ∃ sv2 b, rsv (iterEnv j (l.get ⟨j, by omega⟩)) e = .ok (.lit sv2)
          ∧ boolValue sv2 = .ok b) →
        rsv (iterEnv i (l.get ⟨i, hi⟩)) e = .ok (.lit sv) → boolValue sv = .error err →
        stdFilterH rsv [.list l, .str s] = .error
          ("\"filter\" function: could not resolve filter for " ++ toString i ++ " index (" ++ valueToJson (l.get ⟨i, hi⟩) ++ ") as boolean: " ++ err))) := by
  intro rsv l s e he
  refine ⟨?_, ?_, ?_⟩
  · intro bs hlen hall
    have hloop : filterLoop rsv e 0 l = .ok (filterByFlags l bs) := by
      refine filterLoop_ok rsv e l 0 bs hlen ?_
      intro j hj
      obtain ⟨sv, hsv, hb⟩ := hall j hj
      exact ⟨sv, by simpa [Nat.zero_add] using hsv, hb⟩
    simp only [stdFilterH, sliceValue, toStringD, he, hloop, NewValue]
  · intro i hi r hpre hr hstat
    have hloop := filterLoop_err_symbolic rsv e l 0 i hi r ?_ ?_ hstat
    · simp only [stdFilterH, sliceValue, toStringD, he, hloop]
      simp
    · intro j hj
      obtain ⟨sv, b, hsv, hb⟩ := hpre j hj
      exact ⟨sv, b, by simpa [Nat.zero_add] using hsv, hb⟩
    · simpa [Nat.zero_add] using hr
  · intro i hi sv err hpre hr hbool
    have hloop := filterLoop_err_bool rsv e l 0 i hi sv err ?_ ?_ hbool
    · simp only [stdFilterH, sliceValue, toStringD, he, hloop]
      simp
    · intro j hj
      obtain ⟨sv2, b, hsv2, hb⟩ := hpre j hj
      exact ⟨sv2, b, by simpa [Nat.zero_add] using hsv2, hb⟩
    · simpa [Nat.zero_add] using hr

/-- C5 witness: the spec example, filter(list(1,2,3,4), predicate keeping
values above 2) resolving to the sequence 3, 4 through the modelled
resolver. -/
theorem C5_filter_witness :
    stdFilterH (resolveF 10) [.list [.int 1, .int 2, .int 3, .int 4], .str "_.value > 2"] =
      .ok (.lit (.list [.int 3, .int 4])) := by
  have h := ((C5_filter (resolveF 10) [.int 1, .int 2, .int 3, .int 4] "_.value > 2"
      (.binop ">" (.var "_.value") (.lit (.int 2))) rfl)).1
      [false, false, true, true] rfl
      (fun i hi => by
        have h4 : i < 4 := by simpa using hi
        interval_cases i
        · exact ⟨.bool false, rfl, rfl⟩
        · exact ⟨.bool false, rfl, rfl⟩
        · exact ⟨.bool true, rfl, rfl⟩
        · exact ⟨.bool true, rfl, rfl⟩)
  exact h
